import Mathlib

/-!
Verification of the schema-compiler core of `src/s.py`: the type-graph
construction engine (`create_types` and its helpers).  Raw deserialized
schema documents are modelled by `Node`; the produced type graph by
`TypeDef`; a schema document's namespace by `Namespace`.

The dynamic Python operations that `create_types` performs on raw nodes
(`"enum" in struct`, `struct["enum"]`, `k[-1]`, `type(struct) is str`, ...)
are modelled by explicit `Except`-valued functions that return the same
result or raise the same class of error as the interpreter would
(`TypeError` for membership tests on scalars and subscripts on
strings/lists, `KeyError` for missing keys, `IndexError` for `""[-1]`,
`AssertionError` for failed asserts, `UnboundLocalError` when no branch
assigns `res`).  Strings are treated at the character-list level; the
ASCII fragment of `str.title` is modelled, which covers every identifier
the schema language deals in.
-/

/-!
A raw deserialized schema node: the generic tree of maps, sequences and
scalars the YAML loader hands to `create_types`.  Mappings preserve
insertion order, as Python dicts do.
-/
mutual
/-- See module comment: raw schema node. -/
inductive Node where
  | str (s : String)
  | int (n : Int)
  | bool (b : Bool)
  | null
  | map (fields : NodeFields)
  | seq (items : NodeItems)
deriving DecidableEq
inductive NodeFields where
  | nil
  | cons (key : String) (val : Node) (rest : NodeFields)
deriving DecidableEq
inductive NodeItems where
  | nil
  | cons (head : Node) (rest : NodeItems)
deriving DecidableEq
end

/-!
Model of `copy.deepcopy` on a raw node tree (line 87 of `s.py`): a
structural clone.  On pure values the clone is provably equal to the
original; see `deepcopy_eq`.
-/
mutual
def deepcopy : Node → Node
  | .str s => .str s
  | .int n => .int n
  | .bool b => .bool b
  | .null => .null
  | .map l => .map (deepcopyFields l)
  | .seq l => .seq (deepcopyItems l)
def deepcopyFields : NodeFields → NodeFields
  | .nil => .nil
  | .cons k v r => .cons k (deepcopy v) (deepcopyFields r)
def deepcopyItems : NodeItems → NodeItems
  | .nil => .nil
  | .cons h r => .cons (deepcopy h) (deepcopyItems r)
end


/-!
The produced type graph: Python classes `Primitive`, `Reference`,
`Object`, `Array`, `EnumClass`, `Optional` of `s.py`.  `Object`, `Array`
and `EnumClass` extend `Reference` in the source, so they carry the same
`name`/`path` pair.  An `EnumClass` stores the raw node found under the
`enum` key verbatim.
-/
mutual
inductive TypeDef where
  | primitive (name : String)
  | reference (name : String) (path : String)
  | object (name : String) (path : String) (fields : TFields)
  | array (name : String) (path : String) (item : TypeDef)
  | enumClass (name : String) (path : String) (values : Node)
  | optional (under : TypeDef)
deriving DecidableEq
inductive TFields where
  | nil
  | cons (key : String) (t : TypeDef) (rest : TFields)
deriving DecidableEq
end

/-- Model of the `Optional.__init__` constructor (lines 31-34 of `s.py`),
including its `assert type(t) is not Optional`. -/
def Optional_new : TypeDef → Except String TypeDef
  | .optional _ => .error "AssertionError: argument is already Optional"
  | t => .ok (.optional t)

/-- A `Namespace` (lines 19-22 of `s.py`): the declared name plus the
type table, an insertion-ordered mapping from local type name to type
definition. -/
structure Namespace where
  name : String
  types : List (String × TypeDef)
deriving DecidableEq

/-- Python dict assignment `d[k] = v` on the type table: overwrites in
place when the key is present (keeping its position), appends otherwise. -/
def tableInsert (t : List (String × TypeDef)) (k : String) (v : TypeDef) :
    List (String × TypeDef) :=
  match t with
  | [] => [(k, v)]
  | (k2, v2) :: rest => if k2 == k then (k, v) :: rest else (k2, v2) :: tableInsert rest k v

/-- Python dict lookup `d[k]` on the type table. -/
def tableLookup (t : List (String × TypeDef)) (k : String) : Option TypeDef :=
  match t with
  | [] => none
  | (k2, v2) :: rest => if k2 == k then some v2 else tableLookup rest k

/-- Dict assignment on an `Object`'s field table (`fields[k] = v`). -/
def tfieldsInsert (fs : TFields) (k : String) (v : TypeDef) : TFields :=
  match fs with
  | .nil => .cons k v .nil
  | .cons k2 v2 r => if k2 == k then .cons k v r else .cons k2 v2 (tfieldsInsert r k v)

/-- `Primitive.map` of `s.py` (lines 38-43): the four primitive keywords
with their C++ renderings. -/
def primitiveMap : List (String × String) :=
  [("str", "std::string"), ("bool", "bool"), ("int", "int32_t"), ("float", "double")]

def isPrimitiveKeyword (s : String) : Bool :=
  primitiveMap.any (fun p => p.1 == s)

/-- Does `needle` occur at the head of `hay`? -/
def startsWithChars : List Char → List Char → Bool
  | [], _ => true
  | _ :: _, [] => false
  | a :: as, b :: bs => a == b && startsWithChars as bs

/-- Python substring test `needle in hay` for strings. -/
def hasSubstrChars (needle : List Char) : List Char → Bool
  | [] => startsWithChars needle []
  | c :: cs => startsWithChars needle (c :: cs) || hasSubstrChars needle cs

/-- Does the sequence contain the given string as an element?  This is
Python's `key in list` membership test specialised to a string key:
`key == element` holds only for an equal string element. -/
def itemsHasStr (key : String) : NodeItems → Bool
  | .nil => false
  | .cons (.str s) r => s == key || itemsHasStr key r
  | .cons _ r => itemsHasStr key r

/-- Key membership in a mapping node (`key in dict`). -/
def fieldsHasKey (key : String) : NodeFields → Bool
  | .nil => false
  | .cons k _ r => k == key || fieldsHasKey key r

/-- Mapping lookup (`dict[key]`); `none` would be a `KeyError`. -/
def fieldsLookup (key : String) : NodeFields → Option Node
  | .nil => none
  | .cons k v r => if k == key then some v else fieldsLookup key r

/-- The dynamic membership test `key in struct` of lines 88 and 92 of
`s.py`: key membership for dicts, substring test for strings, element
membership for lists, and a `TypeError` for any other operand. -/
def pyContains (struct : Node) (key : String) : Except String Bool :=
  match struct with
  | .str s => .ok (hasSubstrChars key.data s.data)
  | .map l => .ok (fieldsHasKey key l)
  | .seq l => .ok (itemsHasStr key l)
  | _ => .error "TypeError: argument is not iterable"

/-- The dynamic subscript `struct[key]` of lines 89 and 93 of `s.py`:
dict lookup for mappings, a `TypeError` for strings and lists (their
indices must be integers), and a `TypeError` for scalars. -/
def pySubscript (struct : Node) (key : String) : Except String Node :=
  match struct with
  | .map l =>
    match fieldsLookup key l with
    | some v => .ok v
    | none => .error "KeyError"
  | _ => .error "TypeError: indices must be integers"

/-- Split a character list at every occurrence of `sep`; Python
`s.split(sep)` semantics (the empty string splits to one empty part). -/
def splitChar (sep : Char) : List Char → List (List Char)
  | [] => [[]]
  | c :: cs =>
    match splitChar sep cs with
    | [] => [[]]
    | h :: t => if c == sep then [] :: h :: t else (c :: h) :: t

/-- Python `sep.join(parts)`. -/
def joinChar (sep : Char) : List (List Char) → List Char
  | [] => []
  | [x] => x
  | x :: y :: t => x ++ sep :: joinChar sep (y :: t)

/-- The ASCII fragment of Python `str.title`: a letter is uppercased when
the previous character is not a letter and lowercased otherwise.  The flag
records whether the previous character was a (cased) letter. -/
def titleChars : Bool → List Char → List Char
  | _, [] => []
  | prevCased, c :: cs =>
    if c.isAlpha then
      (if prevCased then c.toLower else c.toUpper) :: titleChars true cs
    else
      c :: titleChars false cs

/-- `_camel_case` of `s.py` (lines 10-11): split on underscores,
title-case each part, concatenate. -/
def _camel_case (s : String) : String :=
  ⟨(splitChar '_' s.data).foldr (fun part acc => titleChars false part ++ acc) []⟩

/-- Python `c in s` character membership, as used by `"." in path`. -/
def containsChar (c : Char) : List Char → Bool
  | [] => false
  | x :: xs => x == c || containsChar c xs

/-- `_resolve_refpath` of `s.py` (lines 73-77): a dotted path resolves to
its last component paired with the joined remainder; a dot-free path
resolves to itself paired with the current namespace's name. -/
def _resolve_refpath (ns : Namespace) (path : String) : String × String :=
  if containsChar '.' path.data then
    let parts := splitChar '.' path.data
    (⟨parts.getLastD []⟩, ⟨joinChar '.' parts.dropLast⟩)
  else (path, ns.name)

/-- The field loop of the mapping branch of `create_types` (lines 99-106
of `s.py`), parameterised by the recursive builder `f`.  A field key
ending in `?` is stripped of the marker; the field value is built under
the synthesized child name, wrapped in `Optional` when marked, and stored
in the field table under the (stripped) key.  `k[-1]` on an empty key is
an `IndexError`. -/
def buildFieldsWith (f : Namespace → String → Node → Except String (TypeDef × Namespace))
    (name : String) : Namespace → TFields → NodeFields → Except String (TFields × Namespace)
  | ns, acc, .nil => .ok (acc, ns)
  | ns, acc, .cons k v rest =>
    match k.data.getLast? with
    | none => .error "IndexError: string index out of range"
    | some last =>
      if last == '?' then
        match f ns (name ++ _camel_case ⟨k.data.dropLast⟩) v with
        | .error e => .error e
        | .ok (t, ns2) =>
          match Optional_new t with
          | .error e => .error e
          | .ok o => buildFieldsWith f name ns2 (tfieldsInsert acc ⟨k.data.dropLast⟩ o) rest
      else
        match f ns (name ++ _camel_case k) v with
        | .error e => .error e
        | .ok (t, ns2) => buildFieldsWith f name ns2 (tfieldsInsert acc k t) rest

/-- The fall-through part of `create_types` after the `enum` and
`structure` checks (lines 94-114 of `s.py`), parameterised by the
recursive builder `f`:
* a bare primitive keyword yields a `Primitive`, registered (line 113)
  under its own name, i.e. the keyword itself;
* any other bare string yields an unregistered `Reference` (early return,
  line 96);
* a mapping yields an `Object` built by the field loop, registered under
  the synthesized name;
* a one-element sequence yields an `Array` whose item is built under the
  synthesized name + "Item", registered under the synthesized name; any
  other length fails the `assert len(struct) == 1`;
* any other node leaves `res` unassigned, an `UnboundLocalError`. -/
def classifyTailWith (f : Namespace → String → Node → Except String (TypeDef × Namespace))
    (ns : Namespace) (name : String) (struct : Node) :
    Except String (TypeDef × Namespace) :=
  match struct with
  | .str s =>
    if isPrimitiveKeyword s then
      let res := TypeDef.primitive s
      .ok (res, { ns with types := tableInsert ns.types s res })
    else
      let r := _resolve_refpath ns s
      .ok (.reference r.1 r.2, ns)
  | .map l =>
    match buildFieldsWith f name ns .nil l with
    | .error e => .error e
    | .ok (fields, ns2) =>
      let res := TypeDef.object name ns.name fields
      .ok (res, { ns2 with types := tableInsert ns2.types name res })
  | .seq (.cons item .nil) =>
    match f ns (name ++ "Item") item with
    | .error e => .error e
    | .ok (t, ns2) =>
      let res := TypeDef.array name ns.name t
      .ok (res, { ns2 with types := tableInsert ns2.types name res })
  | .seq _ => .error "AssertionError: an array type must declare exactly one item"
  | _ => .error "UnboundLocalError: local variable res referenced before assignment"

/-- `create_types` of `s.py` (lines 80-114), for a non-`None` namespace.
The body first takes a structural deep copy of the node (line 87), then:
* a node containing `enum` (dynamic membership test) yields an
  `EnumClass` carrying the subscripted value verbatim, registered under
  the synthesized name;
* a node containing `structure` is unwrapped one level;
* the result falls through to the string/mapping/sequence
  classification (`classifyTailWith`).
The `fuel` argument bounds the recursion depth, standing in for Python's
recursion limit; every recursive call in the source strictly decreases
the node, so any fuel at least the node depth is enough. -/
def create_types : Nat → Namespace → String → Node → Except String (TypeDef × Namespace)
  | 0, _, _, _ => .error "RecursionError: maximum recursion depth exceeded"
  | fuel + 1, ns, name, desc =>
    match pyContains (deepcopy desc) "enum" with
    | .error e => .error e
    | .ok true =>
      match pySubscript (deepcopy desc) "enum" with
      | .error e => .error e
      | .ok vals =>
        let res := TypeDef.enumClass name ns.name vals
        .ok (res, { ns with types := tableInsert ns.types name res })
    | .ok false =>
      match pyContains (deepcopy desc) "structure" with
      | .error e => .error e
      | .ok true =>
        match pySubscript (deepcopy desc) "structure" with
        | .error e => .error e
        | .ok inner => classifyTailWith (fun a b c => create_types fuel a b c) ns name inner
      | .ok false => classifyTailWith (fun a b c => create_types fuel a b c) ns name (deepcopy desc)

/-- The `namespace is None` branch of `create_types` (lines 81-85 of
`s.py`): iterate over the document's declared types in order, threading
the namespace through each build. -/
def create_types_toplevel : Nat → Namespace → NodeFields → Except String Namespace
  | _, ns, .nil => .ok ns
  | fuel, ns, .cons k v rest =>
    match create_types fuel ns k v with
    | .error e => .error e
    | .ok (_, ns2) => create_types_toplevel fuel ns2 rest

/-- One whole-document build: a fresh `Namespace` named by the document's
declared namespace string, populated from its `types` mapping. -/
def create_document (fuel : Nat) (nsName : String) (decls : NodeFields) :
    Except String Namespace :=
  create_types_toplevel fuel (Namespace.mk nsName []) decls

/-! Observers used to state the claims. -/

def isError {α : Type} : Except String α → Bool
  | .error _ => true
  | .ok _ => false

def isOptionalTD : TypeDef → Bool
  | .optional _ => true
  | _ => false

def isEnumClassTD : TypeDef → Bool
  | .enumClass _ _ _ => true
  | _ => false

/-- The five recognized node shapes of the classifier, as Node
constructors: a mapping with key `enum` or key `structure` is a mapping,
so the five shapes cover exactly the bare strings, mappings and
sequences. -/
def matchesRecognizedShape : Node → Bool
  | .str _ => true
  | .map _ => true
  | .seq _ => true
  | _ => false

mutual
/-- No `Optional` directly wraps another `Optional`, anywhere in the
type tree: Optional nesting depth is at most 1. -/
def noDoubleOpt : TypeDef → Bool
  | .optional (.optional _) => false
  | .optional t => noDoubleOpt t
  | .object _ _ fs => noDoubleOptFields fs
  | .array _ _ item => noDoubleOpt item
  | _ => true
def noDoubleOptFields : TFields → Bool
  | .nil => true
  | .cons _ t r => noDoubleOpt t && noDoubleOptFields r
end

def tableAllNoDouble : List (String × TypeDef) → Bool
  | [] => true
  | (_, v) :: rest => noDoubleOpt v && tableAllNoDouble rest

def itemsLen : NodeItems → Nat
  | .nil => 0
  | .cons _ r => itemsLen r + 1

/-! Example nodes used in the concrete scenarios. -/

/-- The `Point` schema node of the end-to-end scenario:
`{x: float, y: float, label?: str}`. -/
def exNodePoint : Node :=
  .map (.cons "x" (.str "float")
    (.cons "y" (.str "float")
      (.cons "label?" (.str "str") .nil)))

/-- The `Object` the `Point` scenario produces. -/
def exObjPoint : TypeDef :=
  .object "Point" "geo"
    (.cons "x" (.primitive "float")
      (.cons "y" (.primitive "float")
        (.cons "label" (.optional (.primitive "str")) .nil)))

/-- A structure-wrapper whose inner node is a mapping with key `enum`. -/
def exNodeStructEnum : Node :=
  .map (.cons "structure"
    (.map (.cons "enum" (.seq (.cons (.str "red") .nil)) .nil)) .nil)

/-- What the builder actually produces for `exNodeStructEnum`: a plain
`Object` with a field named `enum`. -/
def exObjStructEnum : TypeDef :=
  .object "Color" "geo"
    (.cons "enum" (.array "ColorEnum" "geo" (.reference "red" "geo")) .nil)

/-- Two fields (`x`, `x_`) whose synthesized child names collide on `PX`:
`_camel_case "x" = _camel_case "x_" = "X"`. -/
def exNodeOverwrite : Node :=
  .map (.cons "x" (.map (.cons "a" (.str "T") .nil))
    (.cons "x_" (.map .nil) .nil))

/-- The outer `Object` produced for `exNodeOverwrite`. -/
def exObjOverwrite : TypeDef :=
  .object "P" "geo"
    (.cons "x" (.object "PX" "geo" (.cons "a" (.reference "T" "geo") .nil))
      (.cons "x_" (.object "PX" "geo" .nil) .nil))

/-! Theorems. -/

mutual
theorem deepcopy_eq : ∀ n : Node, deepcopy n = n
  | .str _ => rfl
  | .int _ => rfl
  | .bool _ => rfl
  | .null => rfl
  | .map l => by rw [deepcopy, deepcopyFields_eq l]
  | .seq l => by rw [deepcopy, deepcopyItems_eq l]
theorem deepcopyFields_eq : ∀ l : NodeFields, deepcopyFields l = l
  | .nil => rfl
  | .cons k v r => by rw [deepcopyFields, deepcopy_eq v, deepcopyFields_eq r]
theorem deepcopyItems_eq : ∀ l : NodeItems, deepcopyItems l = l
  | .nil => rfl
  | .cons h r => by rw [deepcopyItems, deepcopy_eq h, deepcopyItems_eq r]
end


/-! Basic lemmas about the dict operations. -/

theorem tableLookup_tableInsert (t : List (String × TypeDef)) (k : String) (v : TypeDef) :
    tableLookup (tableInsert t k v) k = some v := by
  induction t with
  | nil => simp [tableInsert, tableLookup]
  | cons hd tl ih =>
    obtain ⟨k2, v2⟩ := hd
    by_cases h : k2 == k
    · simp [tableInsert, h, tableLookup]
    · simp [tableInsert, h, tableLookup, ih]

theorem tableInsert_noDouble (t : List (String × TypeDef)) (k : String) (v : TypeDef)
    (hv : noDoubleOpt v = true) (ht : tableAllNoDouble t = true) :
    tableAllNoDouble (tableInsert t k v) = true := by
  induction t with
  | nil => simp [tableInsert, tableAllNoDouble, hv]
  | cons hd tl ih =>
    obtain ⟨k2, v2⟩ := hd
    simp [tableAllNoDouble] at ht
    by_cases h : k2 == k
    · simp [tableInsert, h, tableAllNoDouble, hv, ht.2]
    · simp [tableInsert, h, tableAllNoDouble, ht.1, ih ht.2]

theorem tfieldsInsert_noDouble : ∀ (fs : TFields) (k : String) (v : TypeDef),
    noDoubleOpt v = true → noDoubleOptFields fs = true →
    noDoubleOptFields (tfieldsInsert fs k v) = true
  | .nil, k, v, hv, _ => by simp [tfieldsInsert, noDoubleOptFields, hv]
  | .cons k2 v2 r, k, v, hv, hfs => by
    simp [noDoubleOptFields] at hfs
    by_cases h : k2 == k
    · simp [tfieldsInsert, h, noDoubleOptFields, hv, hfs.2]
    · simp [tfieldsInsert, h, noDoubleOptFields, hfs.1,
        tfieldsInsert_noDouble r k v hv hfs.2]

/-! Lemmas about the `Optional` constructor and the field loop. -/

theorem Optional_new_ok : ∀ (t u : TypeDef), Optional_new t = .ok u →
    u = .optional t ∧ isOptionalTD t = false := by
  intro t u h
  cases t <;> simp_all [Optional_new, isOptionalTD]

theorem Optional_new_of_not_opt (t : TypeDef) (h : isOptionalTD t = false) :
    Optional_new t = .ok (.optional t) := by
  cases t <;> simp_all [Optional_new, isOptionalTD]

theorem noDoubleOpt_optional (t : TypeDef) (h1 : isOptionalTD t = false)
    (h2 : noDoubleOpt t = true) : noDoubleOpt (.optional t) = true := by
  cases t <;> simp_all [noDoubleOpt, isOptionalTD]

theorem buildFieldsWith_cons_marked
    (f : Namespace → String → Node → Except String (TypeDef × Namespace))
    (name : String) (ns : Namespace) (acc : TFields) (k : String) (v : Node)
    (rest : NodeFields) (t : TypeDef) (ns2 : Namespace)
    (hk : k.data.getLast? = some '?')
    (hb : f ns (name ++ _camel_case ⟨k.data.dropLast⟩) v = .ok (t, ns2))
    (ht : isOptionalTD t = false) :
    buildFieldsWith f name ns acc (.cons k v rest) =
      buildFieldsWith f name ns2 (tfieldsInsert acc ⟨k.data.dropLast⟩ (.optional t)) rest := by
  simp [buildFieldsWith, hk, hb, Optional_new_of_not_opt t ht]

theorem buildFieldsWith_cons_unmarked
    (f : Namespace → String → Node → Except String (TypeDef × Namespace))
    (name : String) (ns : Namespace) (acc : TFields) (k : String) (v : Node)
    (rest : NodeFields) (t : TypeDef) (ns2 : Namespace) (c : Char)
    (hk : k.data.getLast? = some c) (hc : (c == '?') = false)
    (hb : f ns (name ++ _camel_case k) v = .ok (t, ns2)) :
    buildFieldsWith f name ns acc (.cons k v rest) =
      buildFieldsWith f name ns2 (tfieldsInsert acc k t) rest := by
  simp [buildFieldsWith, hk, hc, hb]

/-- The field loop preserves the Optional-nesting invariant, provided the
recursive builder does. -/
theorem buildFieldsWith_noDouble
    (f : Namespace → String → Node → Except String (TypeDef × Namespace))
    (hf : ∀ ns name desc t ns2, f ns name desc = .ok (t, ns2) →
        tableAllNoDouble ns.types = true →
        noDoubleOpt t = true ∧ tableAllNoDouble ns2.types = true)
    (name : String) :
    ∀ (l : NodeFields) (ns : Namespace) (acc fs : TFields) (ns2 : Namespace),
      buildFieldsWith f name ns acc l = .ok (fs, ns2) →
      noDoubleOptFields acc = true → tableAllNoDouble ns.types = true →
      noDoubleOptFields fs = true ∧ tableAllNoDouble ns2.types = true
  | .nil, ns, acc, fs, ns2, h, hacc, hns => by
    simp [buildFieldsWith] at h
    obtain ⟨h1, h2⟩ := h
    subst h1; subst h2
    exact ⟨hacc, hns⟩
  | .cons k v rest, ns, acc, fs, ns2, h, hacc, hns => by
    rw [buildFieldsWith] at h
    split at h
    · exact absurd h (by simp)
    · rename_i last hk
      split at h
      · rename_i hq
        split at h
        · exact absurd h (by simp)
        · rename_i t ns3 hfv
          split at h
          · exact absurd h (by simp)
          · rename_i o ho
            obtain ⟨ht1, ht2⟩ := hf ns _ v t ns3 hfv hns
            obtain ⟨ho1, ho2⟩ := Optional_new_ok t o ho
            subst ho1
            exact buildFieldsWith_noDouble f hf name rest ns3 _ fs ns2 h
              (tfieldsInsert_noDouble acc _ _ (noDoubleOpt_optional t ho2 ht1) hacc) ht2
      · rename_i hq
        split at h
        · exact absurd h (by simp)
        · rename_i t ns3 hfv
          obtain ⟨ht1, ht2⟩ := hf ns _ v t ns3 hfv hns
          exact buildFieldsWith_noDouble f hf name rest ns3 _ fs ns2 h
            (tfieldsInsert_noDouble acc _ _ ht1 hacc) ht2

/-- The string/mapping/sequence classification preserves the
Optional-nesting invariant, provided the recursive builder does. -/
theorem classifyTailWith_noDouble
    (f : Namespace → String → Node → Except String (TypeDef × Namespace))
    (hf : ∀ ns name desc t ns2, f ns name desc = .ok (t, ns2) →
        tableAllNoDouble ns.types = true →
        noDoubleOpt t = true ∧ tableAllNoDouble ns2.types = true)
    (ns : Namespace) (name : String) (struct : Node) (t : TypeDef) (ns2 : Namespace)
    (h : classifyTailWith f ns name struct = .ok (t, ns2))
    (hns : tableAllNoDouble ns.types = true) :
    noDoubleOpt t = true ∧ tableAllNoDouble ns2.types = true := by
  cases struct with
  | str s =>
    rw [classifyTailWith] at h
    split at h
    · simp at h
      obtain ⟨h1, h2⟩ := h
      subst h1; subst h2
      exact ⟨by simp [noDoubleOpt],
        tableInsert_noDouble ns.types s _ (by simp [noDoubleOpt]) hns⟩
    · simp at h
      obtain ⟨h1, h2⟩ := h
      subst h1; subst h2
      exact ⟨by simp [noDoubleOpt], hns⟩
  | map l =>
    rw [classifyTailWith] at h
    split at h
    · exact absurd h (by simp)
    · rename_i fields ns3 hb
      simp at h
      obtain ⟨h1, h2⟩ := h
      subst h1; subst h2
      obtain ⟨hfs, hns3⟩ := buildFieldsWith_noDouble f hf name l ns .nil fields ns3 hb
        (by simp [noDoubleOptFields]) hns
      exact ⟨by simp [noDoubleOpt, hfs],
        tableInsert_noDouble ns3.types name _ (by simp [noDoubleOpt, hfs]) hns3⟩
  | seq items =>
    cases items with
    | nil => simp [classifyTailWith] at h
    | cons head tl =>
      cases tl with
      | nil =>
        rw [classifyTailWith] at h
        split at h
        · exact absurd h (by simp)
        · rename_i ti ns3 hfi
          simp at h
          obtain ⟨h1, h2⟩ := h
          subst h1; subst h2
          obtain ⟨hti, hns3⟩ := hf ns _ head ti ns3 hfi hns
          exact ⟨by simp [noDoubleOpt, hti],
            tableInsert_noDouble ns3.types name _ (by simp [noDoubleOpt, hti]) hns3⟩
      | cons h2 t2 => simp [classifyTailWith] at h
  | int n => simp [classifyTailWith] at h
  | bool b => simp [classifyTailWith] at h
  | null => simp [classifyTailWith] at h

/-- `create_types` preserves the Optional-nesting invariant: the type it
returns has Optional nesting depth at most 1 everywhere, and so does
every entry of the type table it extends. -/
theorem create_types_noDouble : ∀ (fuel : Nat) (ns : Namespace) (name : String)
    (desc : Node) (t : TypeDef) (ns2 : Namespace),
    create_types fuel ns name desc = .ok (t, ns2) → tableAllNoDouble ns.types = true →
    noDoubleOpt t = true ∧ tableAllNoDouble ns2.types = true := by
  intro fuel
  induction fuel with
  | zero => intro ns name desc t ns2 h hns; simp [create_types] at h
  | succ n ih =>
    intro ns name desc t ns2 h hns
    rw [create_types] at h
    rw [deepcopy_eq] at h
    split at h
    · exact absurd h (by simp)
    · split at h
      · exact absurd h (by simp)
      · rename_i vals hv
        simp at h
        obtain ⟨h1, h2⟩ := h
        subst h1; subst h2
        exact ⟨by simp [noDoubleOpt],
          tableInsert_noDouble ns.types name _ (by simp [noDoubleOpt]) hns⟩
    · split at h
      · exact absurd h (by simp)
      · split at h
        · exact absurd h (by simp)
        · rename_i inner hi
          exact classifyTailWith_noDouble _ (fun a b c d e hh => ih a b c d e hh)
            ns name inner t ns2 h hns
      · exact classifyTailWith_noDouble _ (fun a b c d e hh => ih a b c d e hh)
          ns name desc t ns2 h hns

/-! Lemmas about splitting and joining on a separator, for the reference
resolver. -/

theorem splitChar_ne_nil (sep : Char) (l : List Char) : splitChar sep l ≠ [] := by
  cases l with
  | nil => simp [splitChar]
  | cons c cs =>
    rw [splitChar]
    cases h : splitChar sep cs with
    | nil => simp
    | cons hh tt =>
      simp only [h]
      by_cases hc : (c == sep) = true <;> simp [hc]

theorem splitChar_no_sep (sep : Char) : ∀ l : List Char,
    containsChar sep l = false → splitChar sep l = [l]
  | [], _ => rfl
  | c :: cs, h => by
    simp [containsChar] at h
    obtain ⟨h1, h2⟩ := h
    rw [splitChar, splitChar_no_sep sep cs h2]
    simp [h1]

theorem splitChar_append (sep : Char) : ∀ a b : List Char,
    splitChar sep (a ++ sep :: b) = splitChar sep a ++ splitChar sep b
  | [], b => by
    rw [List.nil_append]
    cases h : splitChar sep b with
    | nil => exact absurd h (splitChar_ne_nil sep b)
    | cons hh tt =>
      have lhs : splitChar sep (sep :: b) = [] :: hh :: tt := by
        rw [splitChar, h]; simp
      rw [lhs]
      simp [splitChar]
  | c :: cs, b => by
    rw [List.cons_append, splitChar, splitChar_append sep cs b]
    cases h : splitChar sep cs with
    | nil => exact absurd h (splitChar_ne_nil sep cs)
    | cons hh tt =>
      by_cases hc : (c == sep) = true <;> simp [splitChar, hc, h]

theorem joinChar_cons_cons (sep c : Char) (h : List Char) (t : List (List Char)) :
    joinChar sep ((c :: h) :: t) = c :: joinChar sep (h :: t) := by
  cases t <;> simp [joinChar]

theorem joinChar_splitChar (sep : Char) : ∀ l : List Char,
    joinChar sep (splitChar sep l) = l
  | [] => rfl
  | c :: cs => by
    rw [splitChar]
    cases h : splitChar sep cs with
    | nil => exact absurd h (splitChar_ne_nil sep cs)
    | cons hh tt =>
      by_cases hc : (c == sep) = true
      · have hc2 : c = sep := by simpa using hc
        have ih : joinChar sep (hh :: tt) = cs := by
          rw [← h, joinChar_splitChar sep cs]
        simp [hc, joinChar, ih, hc2]
      · have ih : joinChar sep (hh :: tt) = cs := by
          rw [← h, joinChar_splitChar sep cs]
        simp [hc, joinChar_cons_cons, ih]

theorem containsChar_append_cons (c : Char) : ∀ a b : List Char,
    containsChar c (a ++ c :: b) = true
  | [], b => by simp [containsChar]
  | x :: xs, b => by simp [containsChar, containsChar_append_cons c xs b]

/-- The characterization of `_resolve_refpath` on dot-free paths. -/
theorem resolve_no_dot (ns : Namespace) (path : String)
    (h : containsChar '.' path.data = false) :
    _resolve_refpath ns path = (path, ns.name) := by
  simp [_resolve_refpath, h]

/-- The characterization of `_resolve_refpath` on dotted paths: splitting
off the last dot-free component. -/
theorem resolve_dotted (ns : Namespace) (a b : List Char) (path : String)
    (hp : path.data = a ++ '.' :: b) (hb : containsChar '.' b = false) :
    _resolve_refpath ns path = (⟨b⟩, ⟨a⟩) := by
  have hc : containsChar '.' path.data = true := by
    rw [hp]; exact containsChar_append_cons '.' a b
  rw [_resolve_refpath, if_pos (by simp [hc]), hp,
    splitChar_append '.' a b, splitChar_no_sep '.' b hb]
  simp [joinChar_splitChar]


/-! Small helper lemmas about the membership tests. -/

theorem fieldsHasKey_of_lookup (key : String) : ∀ (l : NodeFields) (v : Node),
    fieldsLookup key l = some v → fieldsHasKey key l = true
  | .nil, v, h => by simp [fieldsLookup] at h
  | .cons k w r, v, h => by
    by_cases hk : (k == key) = true
    · simp [fieldsHasKey, hk]
    · rw [fieldsLookup] at h
      rw [if_neg (by simp_all)] at h
      simp [fieldsHasKey, hk, fieldsHasKey_of_lookup key r v h]

theorem itemsHasStr_single (key : String) (item : Node) (h : item ≠ .str key) :
    itemsHasStr key (.cons item .nil) = false := by
  cases item <;> simp_all [itemsHasStr]

/-! The claims. -/

/-- C10: the builder never mutates the node it is given.  `create_types`
deep-copies its node before inspecting it (line 87 of `s.py`); the copy
is structurally identical to the original, so building from the copy and
building from the original are the same computation and the input's
structure is unchanged when the call returns or fails. -/
theorem claim_C10_no_input_mutation (fuel : Nat) (ns : Namespace) (name : String)
    (desc : Node) :
    deepcopy desc = desc ∧
    create_types fuel ns name (deepcopy desc) = create_types fuel ns name desc :=
  ⟨deepcopy_eq desc, by rw [deepcopy_eq]⟩

/-- C8: a raw node matching none of the five recognized shapes (every
shape is a bare string, a mapping, or a sequence, so this means a scalar
such as an integer, a boolean or a null) makes the build fail fatally:
`create_types` never returns a type definition for it.  In the source the
failure is the `TypeError` raised by `"enum" in struct` on a scalar. -/
theorem claim_C8_unsupported_node (fuel : Nat) (ns : Namespace) (name : String)
    (desc : Node) (h : matchesRecognizedShape desc = false) :
    isError (create_types fuel ns name desc) = true := by
  cases desc with
  | str s => simp [matchesRecognizedShape] at h
  | map l => simp [matchesRecognizedShape] at h
  | seq l => simp [matchesRecognizedShape] at h
  | int n => cases fuel <;> simp [create_types, deepcopy, pyContains, isError]
  | bool b => cases fuel <;> simp [create_types, deepcopy, pyContains, isError]
  | null => cases fuel <;> simp [create_types, deepcopy, pyContains, isError]

/-- C8 witness: an integer scalar node fails the build. -/
theorem claim_C8_witness :
    isError (create_types 5 (Namespace.mk "geo" []) "B" (.int 7)) = true :=
  claim_C8_unsupported_node 5 (Namespace.mk "geo" []) "B" (.int 7) (by rfl)

/-- C9: the build is deterministic — two runs of the whole-document
construction on the same namespace name and the same ordered `types`
mapping produce equal results: the same registered names in the same
table order, the same field orders, the same value orders.  (The
embedding is a pure function of the document content, mirroring the
source's single-threaded pass over insertion-ordered dicts.) -/
theorem claim_C9_deterministic (fuel : Nat) (nsName : String) (decls : NodeFields)
    (r1 r2 : Except String Namespace)
    (h1 : create_document fuel nsName decls = r1)
    (h2 : create_document fuel nsName decls = r2) :
    r1 = r2 ∧
    (∀ ns1 ns2 : Namespace, r1 = .ok ns1 → r2 = .ok ns2 →
      ns1.name = ns2.name ∧ ns1.types = ns2.types) := by
  have h : r1 = r2 := h1.symm.trans h2
  refine ⟨h, ?_⟩
  intro ns1 ns2 e1 e2
  rw [h, e2] at e1
  cases e1
  exact ⟨rfl, rfl⟩

/-- C9 witness: two runs on a one-enum document agree. -/
theorem claim_C9_witness :
    (Except.ok (Namespace.mk "geo"
        [("Color", TypeDef.enumClass "Color" "geo" (.seq (.cons (.str "red") .nil)))]) :
      Except String Namespace) =
    (Except.ok (Namespace.mk "geo"
        [("Color", TypeDef.enumClass "Color" "geo" (.seq (.cons (.str "red") .nil)))]) :
      Except String Namespace) :=
  (claim_C9_deterministic 2 "geo"
    (.cons "Color" (.map (.cons "enum" (.seq (.cons (.str "red") .nil)) .nil)) .nil)
    _ _ rfl rfl).1

/-- C7: registration under an already-present key silently overwrites.
Part one: after a dict assignment the table maps the key to the new
definition.  Part two: a concrete build in which the synthesized child
names of fields `x` and `x_` both come out as `PX`; the build succeeds
with no diagnostic and the final table maps `PX` to the later (empty)
object, the earlier one having been silently replaced. -/
theorem claim_C7_silent_overwrite :
    (∀ (t : List (String × TypeDef)) (k : String) (v : TypeDef),
      tableLookup (tableInsert t k v) k = some v) ∧
    create_types 3 (Namespace.mk "geo" []) "P" exNodeOverwrite =
      .ok (exObjOverwrite,
        Namespace.mk "geo"
          [("PX", .object "PX" "geo" .nil), ("P", exObjOverwrite)]) :=
  ⟨tableLookup_tableInsert, rfl⟩

/-- C1 counterexample: the claim says a bare primitive keyword inserts
nothing into the type table.  In fact building `"float"` in an empty
namespace registers the `Primitive` under the keyword itself (line 113 of
`s.py` runs for the primitive branch too): the table is no longer
empty. -/
theorem claim_C1_counterexample :
    create_types 1 (Namespace.mk "geo" []) "Foo" (.str "float") =
      .ok (.primitive "float",
        Namespace.mk "geo" [("float", .primitive "float")]) ∧
    Namespace.mk "geo" [("float", TypeDef.primitive "float")] ≠ Namespace.mk "geo" [] :=
  ⟨rfl, by decide⟩

/-- C1 (amended): a bare string containing neither `"enum"` nor
`"structure"` as a substring (those make the dynamic membership test
subscript the string and crash) is classified as follows: one of the four
primitive keywords produces a `Primitive` that IS registered in the type
table, under the keyword itself rather than the synthesized name; any
other string produces a `Reference` that is never registered. -/
theorem claim_C1_amended (fuel : Nat) (ns : Namespace) (name : String) (s : String)
    (hEnum : hasSubstrChars ("enum".data) s.data = false)
    (hStruct : hasSubstrChars ("structure".data) s.data = false) :
    (isPrimitiveKeyword s = true →
      create_types (fuel + 1) ns name (.str s) =
        .ok (.primitive s, { ns with types := tableInsert ns.types s (.primitive s) })) ∧
    (isPrimitiveKeyword s = false →
      create_types (fuel + 1) ns name (.str s) =
        .ok (.reference (_resolve_refpath ns s).1 (_resolve_refpath ns s).2, ns)) := by
  constructor <;> intro hp <;>
    simp [create_types, deepcopy, pyContains, hEnum, hStruct, classifyTailWith, hp]

/-- C1 witness: the amended claim at the primitive keyword `float` and at
the non-primitive reference string `Vec`. -/
theorem claim_C1_amended_witness :
    create_types 1 (Namespace.mk "geo" []) "Foo2" (.str "float") =
      .ok (.primitive "float",
        Namespace.mk "geo" [("float", .primitive "float")]) ∧
    create_types 1 (Namespace.mk "geo" []) "Foo3" (.str "Vec") =
      .ok (.reference "Vec" "geo", Namespace.mk "geo" []) := by
  constructor
  · exact (claim_C1_amended 0 (Namespace.mk "geo" []) "Foo2" "float"
      (by decide) (by decide)).1 (by decide)
  · exact (claim_C1_amended 0 (Namespace.mk "geo" []) "Foo3" "Vec"
      (by decide) (by decide)).2 (by decide)

/-- C4: `Optional` never wraps another `Optional`.  The constructor fails
on an `Optional` argument (its assert), it never silently flattens (a
successful construction returns exactly `optional t` for a non-Optional
`t`), and consequently every type definition the builder returns, and
every entry of the type table it extends, has Optional nesting depth at
most 1. -/
theorem claim_C4_optional_non_nesting :
    (∀ t : TypeDef, isError (Optional_new (.optional t)) = true) ∧
    (∀ t u : TypeDef, Optional_new t = .ok u →
      u = .optional t ∧ isOptionalTD t = false) ∧
    (∀ (fuel : Nat) (ns : Namespace) (name : String) (desc : Node)
        (t : TypeDef) (ns2 : Namespace),
      create_types fuel ns name desc = .ok (t, ns2) →
      tableAllNoDouble ns.types = true →
      noDoubleOpt t = true ∧ tableAllNoDouble ns2.types = true) :=
  ⟨fun _ => rfl, Optional_new_ok, create_types_noDouble⟩

/-- C4 witness: the constructor rejects a double Optional, and the
`Point` build (whose `label` field is Optional-wrapped) satisfies the
nesting invariant. -/
theorem claim_C4_witness :
    isError (Optional_new (.optional (.primitive "str"))) = true ∧
    noDoubleOpt exObjPoint = true := by
  constructor
  · exact claim_C4_optional_non_nesting.1 (.primitive "str")
  · exact (claim_C4_optional_non_nesting.2.2 2 (Namespace.mk "geo" []) "Point"
      exNodePoint exObjPoint
      (Namespace.mk "geo" [("float", .primitive "float"), ("str", .primitive "str"),
        ("Point", exObjPoint)])
      rfl rfl).1

/-- C6: the reference resolver is a pure function of the current
namespace's name and the path: namespaces with equal names resolve
equally; a dot-free path resolves to itself in the current namespace; a
path of the form `a ++ "." ++ b` with `b` dot-free resolves to local
name `b` owned by namespace `a` (the path with its trailing component
stripped); and the two concrete examples of the spec hold. -/
theorem claim_C6_resolver :
    (∀ (ns ns2 : Namespace) (path : String), ns.name = ns2.name →
      _resolve_refpath ns path = _resolve_refpath ns2 path) ∧
    (∀ (ns : Namespace) (path : String), containsChar '.' path.data = false →
      _resolve_refpath ns path = (path, ns.name)) ∧
    (∀ (ns : Namespace) (a b : List Char) (path : String),
      path.data = a ++ '.' :: b → containsChar '.' b = false →
      _resolve_refpath ns path = (⟨b⟩, ⟨a⟩)) ∧
    _resolve_refpath (Namespace.mk "pkg.a" []) "T" = ("T", "pkg.a") ∧
    _resolve_refpath (Namespace.mk "pkg.a" []) "pkg.b.T" = ("T", "pkg.b") := by
  refine ⟨?_, resolve_no_dot, resolve_dotted, rfl, rfl⟩
  intro ns ns2 path h
  simp only [_resolve_refpath, h]

/-- C6 witness: the dot-free and dotted characterizations at concrete
paths. -/
theorem claim_C6_witness :
    _resolve_refpath (Namespace.mk "cur" []) "Local" = ("Local", "cur") ∧
    _resolve_refpath (Namespace.mk "cur" []) "x.y.Name" = ("Name", "x.y") := by
  constructor
  · exact claim_C6_resolver.2.1 (Namespace.mk "cur" []) "Local" (by decide)
  · exact claim_C6_resolver.2.2.1 (Namespace.mk "cur" [])
      ("x.y".data) ("Name".data) "x.y.Name" (by decide) (by decide)

/-- C2 counterexample: the claim says a structure-wrapper re-applies the
shape priority (explicit enum first) to the inner node, so a wrapped
mapping with key `enum` should give an `EnumClass`.  In fact the `enum`
check runs only before the unwrap (line 88 before line 92 of `s.py`), so
the inner mapping is built as a plain `Object` with a field named
`enum`. -/
theorem claim_C2_counterexample :
    create_types 3 (Namespace.mk "geo" []) "Color" exNodeStructEnum =
      .ok (exObjStructEnum,
        Namespace.mk "geo"
          [("ColorEnum", .array "ColorEnum" "geo" (.reference "red" "geo")),
           ("Color", exObjStructEnum)]) ∧
    isEnumClassTD exObjStructEnum = false :=
  ⟨rfl, rfl⟩

/-- C2 (amended): a mapping with key `structure` (and without key `enum`)
unwraps one level and classifies the inner node with the same name and
namespace among the bare-string/mapping/sequence shapes only — the enum
and structure-wrapper checks are not re-applied.  In particular a
structure-wrapper whose inner node is a mapping yields an `Object` (never
an `EnumClass`), even when that mapping has an `enum` key. -/
theorem claim_C2_amended (fuel : Nat) (ns : Namespace) (name : String)
    (l : NodeFields) (inner : Node)
    (hNoEnum : fieldsHasKey "enum" l = false)
    (hGet : fieldsLookup "structure" l = some inner) :
    create_types (fuel + 1) ns name (.map l) =
      classifyTailWith (fun a b c => create_types fuel a b c) ns name inner ∧
    (∀ li : NodeFields, inner = .map li →
      ∀ (t : TypeDef) (ns2 : Namespace),
        create_types (fuel + 1) ns name (.map l) = .ok (t, ns2) →
        ∃ fs : TFields, t = .object name ns.name fs ∧ isEnumClassTD t = false) := by
  have hHas : fieldsHasKey "structure" l = true := fieldsHasKey_of_lookup _ l inner hGet
  have heq : create_types (fuel + 1) ns name (.map l) =
      classifyTailWith (fun a b c => create_types fuel a b c) ns name inner := by
    simp [create_types, deepcopy_eq, pyContains, pySubscript, hNoEnum, hHas, hGet]
  refine ⟨heq, ?_⟩
  intro li hli t ns2 hok
  rw [heq, hli, classifyTailWith] at hok
  split at hok
  · exact absurd hok (by simp)
  · rename_i fields ns3 hb
    simp at hok
    obtain ⟨h1, h2⟩ := hok
    exact ⟨fields, h1.symm, by rw [← h1]; rfl⟩

/-- C2 witness: the amended claim at the wrapped enum-keyed mapping. -/
theorem claim_C2_amended_witness :
    create_types 3 (Namespace.mk "geo" []) "Color2" exNodeStructEnum =
      classifyTailWith (fun a b c => create_types 2 a b c) (Namespace.mk "geo" [])
        "Color2" (.map (.cons "enum" (.seq (.cons (.str "red") .nil)) .nil)) :=
  (claim_C2_amended 2 (Namespace.mk "geo" []) "Color2"
    (.cons "structure" (.map (.cons "enum" (.seq (.cons (.str "red") .nil)) .nil)) .nil)
    (.map (.cons "enum" (.seq (.cons (.str "red") .nil)) .nil))
    (by decide) (by decide)).1

/-- C3: mapping nodes build `Object`s field by field in declaration
order.  Part one: a field key ending in `?` has the marker stripped, its
value is built under the synthesized child name (parent name plus the
camel-cased stripped key) and the result is wrapped in `Optional` and
stored under the stripped key.  Part two: any other field is built under
the parent name plus the camel-cased key and stored unwrapped.  Part
three: the end-to-end scenario — building `{x: float, y: float,
label?: str}` as `Point` in namespace `geo` yields the expected `Object`
with its three ordered fields, registered under `Point`. -/
theorem claim_C3_object_fields :
    (∀ (fuel : Nat) (ns : Namespace) (name : String) (acc : TFields) (k : String)
        (v : Node) (rest : NodeFields) (t : TypeDef) (ns2 : Namespace),
      k.data.getLast? = some '?' →
      create_types fuel ns (name ++ _camel_case ⟨k.data.dropLast⟩) v = .ok (t, ns2) →
      isOptionalTD t = false →
      buildFieldsWith (fun a b c => create_types fuel a b c) name ns acc
          (.cons k v rest) =
        buildFieldsWith (fun a b c => create_types fuel a b c) name ns2
          (tfieldsInsert acc ⟨k.data.dropLast⟩ (.optional t)) rest) ∧
    (∀ (fuel : Nat) (ns : Namespace) (name : String) (acc : TFields) (k : String)
        (v : Node) (rest : NodeFields) (t : TypeDef) (ns2 : Namespace) (c : Char),
      k.data.getLast? = some c → (c == '?') = false →
      create_types fuel ns (name ++ _camel_case k) v = .ok (t, ns2) →
      buildFieldsWith (fun a b c => create_types fuel a b c) name ns acc
          (.cons k v rest) =
        buildFieldsWith (fun a b c => create_types fuel a b c) name ns2
          (tfieldsInsert acc k t) rest) ∧
    create_types 2 (Namespace.mk "geo" []) "Point" exNodePoint =
      .ok (exObjPoint,
        Namespace.mk "geo"
          [("float", .primitive "float"), ("str", .primitive "str"),
           ("Point", exObjPoint)]) := by
  refine ⟨?_, ?_, rfl⟩
  · intro fuel ns name acc k v rest t ns2 hk hb ht
    exact buildFieldsWith_cons_marked _ name ns acc k v rest t ns2 hk hb ht
  · intro fuel ns name acc k v rest t ns2 c hk hc hb
    exact buildFieldsWith_cons_unmarked _ name ns acc k v rest t ns2 c hk hc hb

/-- C3 witness: the marked-field step at the `label?` field of `Point`. -/
theorem claim_C3_witness :
    buildFieldsWith (fun a b c => create_types 1 a b c) "Point"
        (Namespace.mk "geo" []) .nil (.cons "label?" (.str "str") .nil) =
      buildFieldsWith (fun a b c => create_types 1 a b c) "Point"
        (Namespace.mk "geo" [("str", .primitive "str")])
        (tfieldsInsert .nil "label" (.optional (.primitive "str"))) .nil := by
  exact claim_C3_object_fields.1 1 (Namespace.mk "geo" []) "Point" .nil "label?"
    (.str "str") .nil (.primitive "str") (Namespace.mk "geo" [("str", .primitive "str")])
    (by decide) (by rfl) (by rfl)

/-- C5 counterexample: the claim says a one-element sequence always
builds successfully.  A one-element sequence whose element is itself an
unsupported scalar fails: the recursion into the element aborts. -/
theorem claim_C5_counterexample :
    isError (create_types 2 (Namespace.mk "geo" []) "A"
      (.seq (.cons (.int 0) .nil))) = true :=
  rfl

/-- C5 (amended): a sequence with zero elements or more than one element
always fails fatally (for any recursion budget).  A sequence with exactly
one element succeeds provided the element is not the literal string
`"enum"` or `"structure"` (those crash the dynamic membership test) and
the recursive build of the element — under child name
`synthesized_name ++ "Item"` — succeeds; the result is an `Array`
wrapping the item result, registered under the synthesized name. -/
theorem claim_C5_amended :
    (∀ (fuel : Nat) (ns : Namespace) (name : String) (l : NodeItems),
      itemsLen l ≠ 1 → isError (create_types fuel ns name (.seq l)) = true) ∧
    (∀ (fuel : Nat) (ns : Namespace) (name : String) (item : Node)
        (t : TypeDef) (ns2 : Namespace),
      item ≠ .str "enum" → item ≠ .str "structure" →
      create_types fuel ns (name ++ "Item") item = .ok (t, ns2) →
      create_types (fuel + 1) ns name (.seq (.cons item .nil)) =
        .ok (.array name ns.name t,
          { ns2 with types := tableInsert ns2.types name (.array name ns.name t) }) ∧
      tableLookup (tableInsert ns2.types name (.array name ns.name t)) name =
        some (.array name ns.name t)) := by
  constructor
  · intro fuel ns name l hl
    cases fuel with
    | zero => rfl
    | succ n =>
      rw [create_types, deepcopy_eq]
      simp only [pyContains]
      cases hb : itemsHasStr "enum" l with
      | true => simp [hb, pySubscript, isError]
      | false =>
        simp only [hb]
        cases hs : itemsHasStr "structure" l with
        | true => simp [hs, pySubscript, isError]
        | false =>
          simp only [hs]
          cases l with
          | nil => simp [classifyTailWith, isError]
          | cons a tl =>
            cases tl with
            | nil => simp [itemsLen] at hl
            | cons a2 tl2 => simp [classifyTailWith, isError]
  · intro fuel ns name item t ns2 h1 h2 hb
    have he : itemsHasStr "enum" (.cons item .nil) = false := itemsHasStr_single _ item h1
    have hs : itemsHasStr "structure" (.cons item .nil) = false :=
      itemsHasStr_single _ item h2
    constructor
    · simp [create_types, deepcopy_eq, pyContains, he, hs, classifyTailWith, hb]
    · exact tableLookup_tableInsert ns2.types name _

/-- C5 witness: a two-element sequence fails; the one-element `Path`
scenario succeeds, with the item built as `PathItem` and the `Array`
registered under `Path`. -/
theorem claim_C5_witness :
    isError (create_types 9 (Namespace.mk "geo" []) "A2"
      (.seq (.cons (.str "T") (.cons (.str "U") .nil)))) = true ∧
    create_types 3 (Namespace.mk "geo" []) "Path"
        (.seq (.cons (.map (.cons "x" (.str "float") .nil)) .nil)) =
      .ok (.array "Path" "geo"
            (.object "PathItem" "geo" (.cons "x" (.primitive "float") .nil)),
        Namespace.mk "geo"
          [("float", .primitive "float"),
           ("PathItem", .object "PathItem" "geo" (.cons "x" (.primitive "float") .nil)),
           ("Path", .array "Path" "geo"
             (.object "PathItem" "geo" (.cons "x" (.primitive "float") .nil)))]) := by
  constructor
  · exact claim_C5_amended.1 9 (Namespace.mk "geo" []) "A2"
      (.cons (.str "T") (.cons (.str "U") .nil)) (by decide)
  · exact (claim_C5_amended.2 2 (Namespace.mk "geo" []) "Path"
      (.map (.cons "x" (.str "float") .nil))
      (.object "PathItem" "geo" (.cons "x" (.primitive "float") .nil))
      (Namespace.mk "geo" [("float", .primitive "float"),
        ("PathItem", .object "PathItem" "geo" (.cons "x" (.primitive "float") .nil))])
      (by decide) (by decide) (by rfl)).1
